import Mathlib

/-!
Verification development for the EVS camera fan-out core
(`packages/services/Car`): a shallow embedding of the broker
(`evs/manager/1.1/HalCamera.cpp`), the per-client stream handler
(`evs/apps/default/StreamHandler.cpp`) and the sample V4L camera driver
(`evs/sampleDriver/EvsV4lCamera.cpp`), together with theorems about the
frame-tracker reference counting, the delivery hot path, the buffer pool
sizing, the mastership arbiter, the two-slot client handoff, the stream
configuration selection and the buffer-pool rollback logic.
-/

set_option maxRecDepth 4096

/-! ## Frame Tracker (HalCamera.cpp)

`HalCamera` keeps a vector `mFrames` of outstanding frame records.

Modelled from the spec: the `FrameRecord` struct itself is declared in
`HalCamera.h`, which is not among the given sources; the spec describes it
as `{ id, refCount }`, a table of outstanding frames with reference counts
keyed by device-assigned buffer identifier.  The arithmetic performed on
`refCount` by `HalCamera.cpp` (`mFrames[i].refCount--` followed by a
`refCount <= 0` test) is the arithmetic of a C++ unsigned 32-bit counter,
so `refCount` is modelled as a natural number with all updates taken
modulo `2^32`.
-/

structure FrameRecord where
  frameId : Nat
  refCount : Nat
  deriving Repr, DecidableEq

/-- `2^32`, the modulus of the unsigned 32-bit `refCount` arithmetic. -/
def U32 : Nat := 4294967296

/-- `HalCamera::doneWithFrame(const BufferDesc_1_1&)`, HalCamera.cpp lines
257-280.  Scans `mFrames` for the first record whose `frameId` matches the
returned buffer; if none matches it only logs.  Otherwise it decrements the
record's `refCount` (unsigned, so a decrement of `0` wraps to `2^32 - 1`)
and, if the result is `<= 0` (for an unsigned counter: `= 0`), hands the
buffer back to the device via `mHwCamera->doneWithFrame_1_1`.  The returned
list holds the ids handed back to the device by this call (`[]` or
`[id]`). -/
def doneWithFrame : List FrameRecord → Nat → List FrameRecord × List Nat
  | [], _ => ([], [])
  | r :: rest, id =>
    if r.frameId = id then
      let rc := (r.refCount + (U32 - 1)) % U32
      (⟨r.frameId, rc⟩ :: rest, if rc = 0 then [id] else [])
    else
      let p := doneWithFrame rest id
      (r :: p.1, p.2)

/-- The registration step of `HalCamera::deliverFrame_1_1`, HalCamera.cpp
lines 348-361: look for the first tracker slot with `refCount == 0`; if one
exists overwrite its `frameId` and set its `refCount`, otherwise
`emplace_back` a new record and set its `refCount`. -/
def registerFrame : List FrameRecord → Nat → Nat → List FrameRecord
  | [], id, n => [⟨id, n⟩]
  | r :: rest, id, n =>
    if r.refCount = 0 then ⟨id, n⟩ :: rest
    else r :: registerFrame rest id n

/-- Index of the first free (`refCount == 0`) tracker slot; this is the
search loop at HalCamera.cpp lines 349-354, and matches the spec's words
"stores the id in the first slot whose `refCount==0`". -/
def firstFreeIdx : List FrameRecord → Option Nat
  | [] => none
  | r :: rest =>
    if r.refCount = 0 then some 0
    else (firstFreeIdx rest).map (· + 1)

/-- The tail of `HalCamera::deliverFrame_1_1`, HalCamera.cpp lines 340-362:
once the accept count (`frameDeliveries`) of a delivered frame is known,
either return the frame to the device immediately (accept count `< 1`) or
register it in the tracker with `refCount` equal to the accept count.
Returns the new tracker plus the ids handed back to the device. -/
def deliverTail (frames : List FrameRecord) (id acceptCount : Nat) :
    List FrameRecord × List Nat :=
  if acceptCount < 1 then (frames, [id])
  else (registerFrame frames id acceptCount, [])

/-- One broker-visible tracker operation: a frame delivery that ended with
a given accept count, or a client release (`doneWithFrame`). -/
inductive TrackerOp where
  | deliver (id : Nat) (acceptCount : Nat)
  | release (id : Nat)
  deriving Repr, DecidableEq

/-- Apply one tracker operation; the second component lists the buffer ids
returned to the device by this operation. -/
def trackerStep (frames : List FrameRecord) : TrackerOp → List FrameRecord × List Nat
  | .deliver id n => deliverTail frames id n
  | .release id => doneWithFrame frames id

/-- Run a sequence of tracker operations, collecting every buffer id
returned to the device, in order. -/
def trackerRun (frames : List FrameRecord) : List TrackerOp → List FrameRecord × List Nat
  | [] => (frames, [])
  | op :: rest =>
    let p := trackerStep frames op
    let q := trackerRun p.1 rest
    (q.1, p.2 ++ q.2)

theorem trackerRun_append (frames : List FrameRecord) (l1 l2 : List TrackerOp) :
    trackerRun frames (l1 ++ l2) =
      ((trackerRun (trackerRun frames l1).1 l2).1,
        (trackerRun frames l1).2 ++ (trackerRun (trackerRun frames l1).1 l2).2) := by
  induction l1 generalizing frames with
  | nil => simp [trackerRun]
  | cons op rest ih =>
    simp only [List.cons_append, trackerRun, List.append_eq]
    rw [ih]
    simp [List.append_assoc]

/-- One release against a single-record tracker `[⟨1, r⟩]` with
`0 < r < 2^32`: the unsigned counter drops by one and the buffer is handed
back to the device exactly when the counter reaches zero, i.e. when
`r = 1`. -/
theorem trackerStep_release_single (r : Nat) (hr0 : 0 < r) (hrU : r < U32) :
    trackerStep [(⟨1, r⟩ : FrameRecord)] (TrackerOp.release 1) =
      ([⟨1, r - 1⟩], if r = 1 then [1] else []) := by
  have hmod : (r + (U32 - 1)) % U32 = r - 1 := by
    have h1 : r + (U32 - 1) = (r - 1) + U32 := by omega
    rw [h1, Nat.add_mod_right, Nat.mod_eq_of_lt (by omega)]
  by_cases hr1 : r = 1
  · subst hr1
    decide
  · have h1 : ¬(r - 1 = 0) := by omega
    simp [trackerStep, doneWithFrame, hmod, h1, hr1]

/-- Releasing a single-record tracker `[⟨1, r⟩]` `k` times, `k ≤ r < 2^32`:
each release decrements the unsigned counter by one, and the buffer is
handed back to the device exactly once, on the `r`-th release. -/
theorem trackerRun_release_le (k : Nat) :
    ∀ r : Nat, 0 < r → r < U32 → k ≤ r →
      trackerRun [⟨1, r⟩] (List.replicate k (TrackerOp.release 1)) =
        ([⟨1, r - k⟩], if k = r then [1] else []) := by
  induction k with
  | zero =>
    intro r hr0 _ _
    rw [if_neg (by omega : ¬(0 = r))]
    simp [trackerRun]
  | succ k ih =>
    intro r hr0 hrU hk
    by_cases hr1 : r = 1
    · subst hr1
      have hk0 : k = 0 := by omega
      subst hk0
      simp only [List.replicate_succ, List.replicate_zero, trackerRun,
        trackerStep_release_single 1 (by omega) (by norm_num [U32])]
      simp
    · rw [List.replicate_succ]
      simp only [trackerRun, trackerStep_release_single r hr0 hrU]
      rw [if_neg hr1]
      rw [ih (r - 1) (by omega) (by omega) (by omega)]
      have he : r - 1 - k = r - (k + 1) := by omega
      by_cases hkr : k + 1 = r
      · simp only [List.nil_append, he]
        rw [if_pos (by omega : k = r - 1), if_pos hkr]
      · simp only [List.nil_append, he]
        rw [if_neg (by omega : ¬(k = r - 1)), if_neg hkr]

/-- C1: the claim states that for every sequence of deliveries and releases
no frame buffer is returned to the device twice, including sequences in
which `doneWithFrame` is called again on a record whose `refCount` is
already zero.  The code violates this: deliver buffer 1 with one accepting
client, then call `doneWithFrame` for buffer 1 `2^32 + 1` times.  The first
release takes the refCount from 1 to 0 and returns the buffer; the next
release wraps the unsigned refCount to `2^32 - 1`, and the remaining
`2^32 - 1` releases drive it back to 0, at which point
`mHwCamera->doneWithFrame_1_1` is invoked a second time for the same
buffer: the buffer is returned to the device twice. -/
theorem C1_doneWithFrame_double_return :
    ((trackerRun []
        (TrackerOp.deliver 1 1 ::
          List.replicate (U32 + 1) (TrackerOp.release 1))).2.count 1) = 2 := by
  have hops : TrackerOp.deliver 1 1 :: List.replicate (U32 + 1) (TrackerOp.release 1) =
      [TrackerOp.deliver 1 1] ++
        (List.replicate 2 (TrackerOp.release 1) ++
          List.replicate (U32 - 1) (TrackerOp.release 1)) := by
    rw [← List.replicate_add]
    have h21 : (2 : Nat) + (U32 - 1) = U32 + 1 := by norm_num [U32]
    rw [h21]
    rfl
  have e1 : trackerRun [] [TrackerOp.deliver 1 1] = ([⟨1, 1⟩], []) := by decide
  have e2 : trackerRun [⟨1, 1⟩] (List.replicate 2 (TrackerOp.release 1)) =
      ([⟨1, U32 - 1⟩], [1]) := by decide
  have e3 : trackerRun [⟨1, U32 - 1⟩]
      (List.replicate (U32 - 1) (TrackerOp.release 1)) = ([⟨1, 0⟩], [1]) := by
    have h := trackerRun_release_le (U32 - 1) (U32 - 1)
      (by norm_num [U32]) (by norm_num [U32]) le_rfl
    rw [if_pos rfl] at h
    simpa using h
  rw [hops, trackerRun_append, e1]
  simp only [trackerRun_append, e2]
  simp only [e2, e3]
  simp [List.count_cons]

/-! ## Frame delivery hot path (HalCamera.cpp lines 150-166, 297-365)

A virtual client is known to the broker through a weak pointer; `alive`
says whether `promote()` succeeds, `version` is `getVersion()` (legacy
v1.0 clients have version `0`, and the legacy fan-out at lines 329-338
skips every client with `getVersion() > 0`), and `accepts` is the result
of `deliverFrame(buffer[0])` for the frame currently being delivered.
Clients are identified by `cid` (the object address in the C++ code). -/

structure Client where
  cid : Nat
  alive : Bool
  version : Nat
  accepts : Bool
  deriving Repr, DecidableEq

/-- `HalCamera::FrameRequest`: a weak client reference plus the
`lastTimestamp` the client passed to `requestNewFrame` (HalCamera.cpp
lines 150-166). -/
structure FrameRequest where
  client : Client
  timestamp : Int
  deriving Repr, DecidableEq

/-- `kThreshold = 16 * 1e+3` microseconds, HalCamera.cpp line 303. -/
def kThreshold : Int := 16000

/-- The request-draining loop of `deliverFrame_1_1`, HalCamera.cpp lines
307-324: pop each request of the swapped-in current deque; skip it if the
client is dead; push it back (unchanged) onto `mNextRequests` if the frame
arrived less than `kThreshold` after the request's `lastTimestamp`;
otherwise attempt delivery and count the accept.  Returns the next-cycle
deque and the list of client ids that accepted a delivery, in processing
order. -/
def processRequests (ts : Int) : List FrameRequest → List FrameRequest × List Nat
  | [] => ([], [])
  | req :: rest =>
    if req.client.alive = true then
      if ts - req.timestamp < kThreshold then
        let p := processRequests ts rest
        (req :: p.1, p.2)
      else if req.client.accepts = true then
        let p := processRequests ts rest
        (p.1, req.client.cid :: p.2)
      else processRequests ts rest
    else processRequests ts rest

/-- The unconditional v1.0 fan-out of `deliverFrame_1_1`, HalCamera.cpp
lines 327-338: every live client with `getVersion() <= 0` is offered the
frame; accepting clients are counted. -/
def legacyFanout : List Client → List Nat
  | [] => []
  | c :: rest =>
    if c.alive = true then
      if 0 < c.version then legacyFanout rest
      else if c.accepts = true then c.cid :: legacyFanout rest
      else legacyFanout rest
    else legacyFanout rest

/-- `HalCamera::deliverFrame_1_1`, HalCamera.cpp lines 297-365: drain the
swapped request deque, fan out to legacy clients, then either return the
frame to the device (no acceptance) or register it in the tracker with
`refCount` equal to the total accept count.  Result components: new
tracker array, next-cycle request deque, delivered client ids, buffer ids
returned to the device. -/
def deliverFrame_1_1 (clients : List Client) (frames : List FrameRecord)
    (pending : List FrameRequest) (fid : Nat) (ts : Int) :
    List FrameRecord × List FrameRequest × List Nat × List Nat :=
  let pr := processRequests ts pending
  let lg := legacyFanout clients
  let frameDeliveries := pr.2.length + lg.length
  let t := deliverTail frames fid frameDeliveries
  (t.1, pr.1, pr.2 ++ lg, t.2)

/-- `registerFrame` stores the new record in the first slot whose
`refCount` is zero, or appends a record when every slot is live. -/
theorem registerFrame_eq (frames : List FrameRecord) (id n : Nat) :
    registerFrame frames id n =
      match firstFreeIdx frames with
      | some i => frames.set i ⟨id, n⟩
      | none => frames ++ [⟨id, n⟩] := by
  induction frames with
  | nil => rfl
  | cons r rest ih =>
    by_cases h : r.refCount = 0
    · simp [registerFrame, firstFreeIdx, h]
    · cases hf : firstFreeIdx rest with
      | none => simp [registerFrame, firstFreeIdx, h, ih, hf]
      | some i => simp [registerFrame, firstFreeIdx, h, ih, hf]

/-- C2: after one delivered frame is processed, a zero accept count means
the frame is returned to the device at once and the tracker is untouched;
a positive accept count `n` means nothing is returned and a record
`⟨fid, n⟩` is stored in the first tracker slot with `refCount = 0`, or
appended when no such slot exists. -/
theorem C2_deliver_registers_frame (clients : List Client)
    (frames : List FrameRecord) (pending : List FrameRequest)
    (fid : Nat) (ts : Int) :
    ((processRequests ts pending).2.length + (legacyFanout clients).length = 0 →
      (deliverFrame_1_1 clients frames pending fid ts).1 = frames ∧
      (deliverFrame_1_1 clients frames pending fid ts).2.2.2 = [fid]) ∧
    (∀ n, (processRequests ts pending).2.length + (legacyFanout clients).length = n →
      0 < n →
      (deliverFrame_1_1 clients frames pending fid ts).2.2.2 = [] ∧
      (deliverFrame_1_1 clients frames pending fid ts).1 =
        (match firstFreeIdx frames with
         | some i => frames.set i ⟨fid, n⟩
         | none => frames ++ [⟨fid, n⟩])) := by
  constructor
  · intro h0
    simp [deliverFrame_1_1, deliverTail, h0]
  · intro n hn hpos
    have hnlt : ¬(n < 1) := by omega
    simp [deliverFrame_1_1, deliverTail, hn, hnlt, registerFrame_eq]

/-- Witness for C2 at a concrete state: one live legacy client accepts the
frame, so the record `⟨7, 1⟩` replaces the free slot `⟨3, 0⟩`. -/
theorem C2_deliver_registers_frame_witness :
    (deliverFrame_1_1 [⟨1, true, 0, true⟩] [⟨5, 2⟩, ⟨3, 0⟩] [] 7 100).1 =
      [⟨5, 2⟩, ⟨7, 1⟩] := by
  have h := (C2_deliver_registers_frame [⟨1, true, 0, true⟩] [⟨5, 2⟩, ⟨3, 0⟩]
    [] 7 100).2 1 (by decide) (by decide)
  rw [h.2]
  decide

/-- A deferred request (live client, frame too soon) is pushed, unchanged,
onto the next-cycle deque. -/
theorem processRequests_defer_mem (ts : Int) (pending : List FrameRequest)
    (req : FrameRequest) (hmem : req ∈ pending)
    (halive : req.client.alive = true)
    (hsoon : ts - req.timestamp < kThreshold) :
    req ∈ (processRequests ts pending).1 := by
  induction pending with
  | nil => cases hmem
  | cons r rest ih =>
    rcases List.mem_cons.mp hmem with heq | hmem2
    · subst heq
      simp [processRequests, halive, hsoon]
    · by_cases h1 : r.client.alive = true
      · by_cases h2 : ts - r.timestamp < kThreshold
        · simp only [processRequests, h1, if_pos, if_true, h2]
          exact List.mem_cons_of_mem r (ih hmem2)
        · by_cases h3 : r.client.accepts = true
          · simp [processRequests, h1, h2, h3, ih hmem2]
          · simp [processRequests, h1, h2, h3, ih hmem2]
      · simp [processRequests, h1, ih hmem2]

/-- Every client id delivered by the request loop comes from a live,
accepting request whose frame gap was at least the threshold. -/
theorem processRequests_delivered (ts : Int) (pending : List FrameRequest)
    (cid : Nat) (hmem : cid ∈ (processRequests ts pending).2) :
    ∃ r ∈ pending, r.client.cid = cid ∧ r.client.alive = true ∧
      ¬(ts - r.timestamp < kThreshold) ∧ r.client.accepts = true := by
  induction pending with
  | nil => simp [processRequests] at hmem
  | cons r rest ih =>
    by_cases h1 : r.client.alive = true
    · by_cases h2 : ts - r.timestamp < kThreshold
      · simp only [processRequests, h1, if_true, h2, if_pos] at hmem
        obtain ⟨r', hr', hprops⟩ := ih hmem
        exact ⟨r', List.mem_cons_of_mem r hr', hprops⟩
      · by_cases h3 : r.client.accepts = true
        · simp only [processRequests, h1, if_true, h2, if_false, h3,
            if_pos] at hmem
          rcases List.mem_cons.mp hmem with heq | hmem2
          · exact ⟨r, List.mem_cons_self r rest, heq.symm, h1, h2, h3⟩
          · obtain ⟨r', hr', hprops⟩ := ih hmem2
            exact ⟨r', List.mem_cons_of_mem r hr', hprops⟩
        · simp only [processRequests, h1, if_true, h2, h3] at hmem
          simp only [if_false] at hmem
          obtain ⟨r', hr', hprops⟩ := ih (by simpa using hmem)
          exact ⟨r', List.mem_cons_of_mem r hr', hprops⟩
    · simp only [processRequests, h1] at hmem
      obtain ⟨r', hr', hprops⟩ := ih (by simpa using hmem)
      exact ⟨r', List.mem_cons_of_mem r hr', hprops⟩

/-- Every client id delivered by the legacy fan-out belongs to a live
version-0 client. -/
theorem legacyFanout_delivered (clients : List Client) (cid : Nat)
    (hmem : cid ∈ legacyFanout clients) :
    ∃ c ∈ clients, c.cid = cid ∧ c.alive = true ∧ c.version = 0 := by
  induction clients with
  | nil => simp [legacyFanout] at hmem
  | cons c rest ih =>
    by_cases h1 : c.alive = true
    · by_cases h2 : 0 < c.version
      · simp only [legacyFanout, h1, if_true, h2, if_pos] at hmem
        obtain ⟨c', hc', hprops⟩ := ih hmem
        exact ⟨c', List.mem_cons_of_mem c hc', hprops⟩
      · by_cases h3 : c.accepts = true
        · simp only [legacyFanout, h1, if_true, h2, if_false, h3,
            if_pos] at hmem
          rcases List.mem_cons.mp hmem with heq | hmem2
          · exact ⟨c, List.mem_cons_self c rest, heq.symm, h1, by omega⟩
          · obtain ⟨c', hc', hprops⟩ := ih hmem2
            exact ⟨c', List.mem_cons_of_mem c hc', hprops⟩
        · simp only [legacyFanout, h1, if_true, h2, h3] at hmem
          simp only [if_false] at hmem
          obtain ⟨c', hc', hprops⟩ := ih (by simpa using hmem)
          exact ⟨c', List.mem_cons_of_mem c hc', hprops⟩
    · simp only [legacyFanout, h1] at hmem
      obtain ⟨c', hc', hprops⟩ := ih (by simpa using hmem)
      exact ⟨c', List.mem_cons_of_mem c hc', hprops⟩

/-- C3: in the delivery hot path, a pending request whose client is alive
and whose gap `ts - lastTimestamp` is below the threshold is moved
unchanged to the next-cycle deque, and — given that the client has at most
one pending request and is a v1.1 (non-legacy) client — that client
receives no delivery in the current cycle, neither from the request loop
nor from the legacy fan-out. -/
theorem C3_request_deferred (clients : List Client) (frames : List FrameRecord)
    (pending : List FrameRequest) (fid : Nat) (ts : Int) (req : FrameRequest)
    (hmem : req ∈ pending)
    (halive : req.client.alive = true)
    (hsoon : ts - req.timestamp < kThreshold)
    (huniq : ∀ r ∈ pending, r.client.cid = req.client.cid → r = req)
    (hver : ∀ c ∈ clients, c.cid = req.client.cid → 0 < c.version) :
    req ∈ (deliverFrame_1_1 clients frames pending fid ts).2.1 ∧
    req.client.cid ∉ (deliverFrame_1_1 clients frames pending fid ts).2.2.1 := by
  constructor
  · show req ∈ (processRequests ts pending).1
    exact processRequests_defer_mem ts pending req hmem halive hsoon
  · show req.client.cid ∉ (processRequests ts pending).2 ++ legacyFanout clients
    intro hdel
    rcases List.mem_append.mp hdel with h | h
    · obtain ⟨r, hr, hcid, _, hgap, _⟩ := processRequests_delivered ts pending _ h
      have hreq : r = req := huniq r hr hcid
      subst hreq
      exact hgap hsoon
    · obtain ⟨c, hc, hcid, _, hv0⟩ := legacyFanout_delivered clients _ h
      have := hver c hc hcid
      omega

/-- Witness for C3 at a concrete state: one pending request from a live
v1.1 client, frame 100 µs after its last delivery. -/
theorem C3_request_deferred_witness :
    (⟨⟨1, true, 1, true⟩, 0⟩ : FrameRequest) ∈
      (deliverFrame_1_1 [⟨1, true, 1, true⟩] [] [⟨⟨1, true, 1, true⟩, 0⟩]
        5 100).2.1 ∧
    (1 : Nat) ∉
      (deliverFrame_1_1 [⟨1, true, 1, true⟩] [] [⟨⟨1, true, 1, true⟩, 0⟩]
        5 100).2.2.1 :=
  C3_request_deferred [⟨1, true, 1, true⟩] [] [⟨⟨1, true, 1, true⟩, 0⟩] 5 100
    ⟨⟨1, true, 1, true⟩, 0⟩ (by decide) (by decide) (by decide)
    (by decide) (by decide)

/-! ## Buffer pool sizing (HalCamera::changeFramesInFlight, lines 106-147)

For this operation a broker client is just its liveness (whether the weak
pointer promotes) and its `getAllowedBuffers()` value. -/

structure BrokerClient where
  alive : Bool
  allowedBuffers : Nat
  deriving Repr, DecidableEq

/-- The client walk at HalCamera.cpp lines 108-114: sum
`getAllowedBuffers()` over every client whose weak reference promotes. -/
def sumAllowedBuffers : List BrokerClient → Nat
  | [] => 0
  | c :: rest =>
    (if c.alive = true then c.allowedBuffers else 0) + sumAllowedBuffers rest

/-- The copy-and-compact loop at HalCamera.cpp lines 130-143: copy the
records that are still active (`refCount > 0`) into a fresh vector,
preserving their order. -/
def compactRecords : List FrameRecord → List FrameRecord
  | [] => []
  | r :: rest =>
    if 0 < r.refCount then r :: compactRecords rest else compactRecords rest

/-- `HalCamera::changeFramesInFlight(int delta)`, HalCamera.cpp lines
106-147: sum the live clients' buffer shares, add `delta`, clamp to at
least one, ask the device (`mHwCamera->setMaxFramesInFlight`, modelled by
the oracle `agrees`) for that many buffers; on success swap the frame
record array for the compacted copy, on failure leave it alone.  The
in-repo callers pass `delta = getAllowedBuffers()` or `0`, both
non-negative.  Result: (success, new record array, count requested from
the device). -/
def changeFramesInFlight (agrees : Nat → Bool) (clients : List BrokerClient)
    (frames : List FrameRecord) (delta : Nat) :
    Bool × List FrameRecord × Nat :=
  let bufferCount := sumAllowedBuffers clients + delta
  let bufferCount := if bufferCount < 1 then 1 else bufferCount
  let success := agrees bufferCount
  if success = true then (true, compactRecords frames, bufferCount)
  else (false, frames, bufferCount)

/-- Compaction keeps exactly the live records, in order. -/
theorem compactRecords_eq_filter (frames : List FrameRecord) :
    compactRecords frames = frames.filter (fun r => decide (0 < r.refCount)) := by
  induction frames with
  | nil => rfl
  | cons r rest ih =>
    by_cases h : 0 < r.refCount
    · simp [compactRecords, List.filter, h, ih]
    · simp [compactRecords, List.filter, h, ih]

/-- C4: `changeFramesInFlight(delta)` asks the device for
`max 1 (sum of live clients' allowedBuffers + delta)` in-flight buffers
and succeeds iff the device agrees; on refusal the frame record array is
untouched, and on agreement it becomes exactly the live (`refCount > 0`)
records in their original order, with no live record dropped. -/
theorem C4_changeFramesInFlight (agrees : Nat → Bool)
    (clients : List BrokerClient) (frames : List FrameRecord) (delta : Nat) :
    ((changeFramesInFlight agrees clients frames delta).2.2 =
        max 1 (sumAllowedBuffers clients + delta)) ∧
    1 ≤ (changeFramesInFlight agrees clients frames delta).2.2 ∧
    ((changeFramesInFlight agrees clients frames delta).1 = true ↔
        agrees (max 1 (sumAllowedBuffers clients + delta)) = true) ∧
    ((changeFramesInFlight agrees clients frames delta).1 = false →
        (changeFramesInFlight agrees clients frames delta).2.1 = frames) ∧
    ((changeFramesInFlight agrees clients frames delta).1 = true →
        (changeFramesInFlight agrees clients frames delta).2.1 =
          frames.filter (fun r => decide (0 < r.refCount)) ∧
        ∀ r ∈ frames, 0 < r.refCount →
          r ∈ (changeFramesInFlight agrees clients frames delta).2.1) := by
  have hclamp : (if sumAllowedBuffers clients + delta < 1 then 1
      else sumAllowedBuffers clients + delta) =
      max 1 (sumAllowedBuffers clients + delta) := by
    rcases Nat.eq_zero_or_pos (sumAllowedBuffers clients + delta) with h | h
    · simp [h]
    · rw [if_neg (by omega)]
      exact (Nat.max_eq_right h).symm
  cases hA : agrees (max 1 (sumAllowedBuffers clients + delta)) with
  | true =>
    simp only [changeFramesInFlight, hclamp, hA]
    refine ⟨rfl, le_max_left 1 _, by simp, by simp,
      fun _ => ⟨compactRecords_eq_filter frames, ?_⟩⟩
    intro r hr hlive
    rw [compactRecords_eq_filter]
    exact List.mem_filter.mpr ⟨hr, by simpa using hlive⟩
  | false =>
    simp only [changeFramesInFlight, hclamp, hA]
    exact ⟨rfl, le_max_left 1 _, by simp, fun _ => rfl, by simp⟩

/-- Witness for C4 at a concrete state: the device agrees, the dead
record `⟨5, 0⟩` is compacted away and the live record `⟨6, 3⟩` kept. -/
theorem C4_changeFramesInFlight_witness :
    (changeFramesInFlight (fun _ => true) [⟨true, 2⟩] [⟨5, 0⟩, ⟨6, 3⟩] 1).2.1 =
      [⟨6, 3⟩] := by
  have h := (C4_changeFramesInFlight (fun _ => true) [⟨true, 2⟩]
    [⟨5, 0⟩, ⟨6, 3⟩] 1).2.2.2.2 (by decide)
  rw [h.1]
  decide

/-! ## Mastership arbiter (HalCamera.cpp lines 368-445)

`mMaster` is a weak pointer: `setMaster` tests it against `nullptr`
directly (a dead master still blocks the slot), while `unsetMaster`
compares `mMaster.promote()` with the calling client, so `aliveM` tells
whether a stored master id still promotes.  `HalCamera::notify` (lines
368-390) forwards an event to every promotable client, first moving the
stream state to STOPPED if the event is STREAM_STOPPED. -/

inductive EvsResult where
  | OK
  | INVALID_ARG
  | BUFFER_NOT_AVAILABLE
  | OWNERSHIP_LOST
  | STREAM_ALREADY_RUNNING
  | UNDERLYING_SERVICE_ERROR
  deriving Repr, DecidableEq

inductive EvsEventType where
  | STREAM_STARTED
  | STREAM_STOPPED
  | FRAME_DROPPED
  | TIMEOUT
  | PARAMETER_CHANGED
  | MASTER_RELEASED
  deriving Repr, DecidableEq

inductive StreamState where
  | STOPPED
  | RUNNING
  | STOPPING
  deriving Repr, DecidableEq

structure HalCameraState where
  master : Option Nat
  clients : List Client
  streamState : StreamState
  deriving Repr, DecidableEq

/-- `wp::promote()` on the stored master: `none` stays `none`, a stored id
promotes only while the object is alive. -/
def promoteMaster (aliveM : Nat → Bool) : Option Nat → Option Nat
  | none => none
  | some c => if aliveM c = true then some c else none

/-- The fan-out loop of `HalCamera::notify`, lines 380-387: the event is
offered to every client whose weak reference promotes. -/
def notifyClients (clients : List Client) (ev : EvsEventType) :
    List (Nat × EvsEventType) :=
  clients.filterMap (fun c => if c.alive = true then some (c.cid, ev) else none)

/-- `HalCamera::notify`, lines 368-390. -/
def halNotify (s : HalCameraState) (ev : EvsEventType) :
    HalCameraState × List (Nat × EvsEventType) :=
  let s' := if ev = EvsEventType.STREAM_STOPPED then
      { s with streamState := .STOPPED } else s
  (s', notifyClients s'.clients ev)

/-- `HalCamera::setMaster`, lines 393-402: if `mMaster == nullptr` install
the caller and return OK, else return OWNERSHIP_LOST. -/
def setMaster (s : HalCameraState) (c : Nat) : HalCameraState × EvsResult :=
  match s.master with
  | none => ({ s with master := some c }, .OK)
  | some _ => (s, .OWNERSHIP_LOST)

/-- `HalCamera::unsetMaster`, lines 428-445: if `mMaster.promote()` is not
the caller return INVALID_ARG; otherwise clear the master, broadcast
MASTER_RELEASED through `notify`, and return OK. -/
def unsetMaster (aliveM : Nat → Bool) (s : HalCameraState) (c : Nat) :
    HalCameraState × EvsResult × List (Nat × EvsEventType) :=
  if promoteMaster aliveM s.master ≠ some c then (s, .INVALID_ARG, [])
  else
    let s' := { s with master := none }
    let p := halNotify s' .MASTER_RELEASED
    (p.1, .OK, p.2)

/-- C5: `setMaster(C)` returns OK and installs C iff no master is set,
otherwise OWNERSHIP_LOST with the owner unchanged; `unsetMaster(C)`
returns INVALID_ARG and changes nothing when C is not the current owner,
otherwise clears the ownership, broadcasts MASTER_RELEASED to every live
client, and returns OK. -/
theorem C5_master_arbiter (aliveM : Nat → Bool) (s : HalCameraState) (c : Nat) :
    ((setMaster s c).2 = .OK ↔ s.master = none) ∧
    (s.master = none → (setMaster s c).1 = { s with master := some c }) ∧
    (s.master ≠ none →
      (setMaster s c).2 = .OWNERSHIP_LOST ∧ (setMaster s c).1 = s) ∧
    (promoteMaster aliveM s.master ≠ some c →
      unsetMaster aliveM s c = (s, .INVALID_ARG, [])) ∧
    (promoteMaster aliveM s.master = some c →
      unsetMaster aliveM s c =
        ({ s with master := none }, .OK,
          notifyClients s.clients .MASTER_RELEASED)) := by
  refine ⟨?_, ?_, ?_, ?_, ?_⟩
  · cases hm : s.master with
    | none => simp [setMaster, hm]
    | some m => simp [setMaster, hm]
  · intro hm
    simp [setMaster, hm]
  · intro hm
    cases hm2 : s.master with
    | none => exact absurd hm2 hm
    | some m => simp [setMaster, hm2]
  · intro hne
    simp [unsetMaster, hne]
  · intro heq
    simp [unsetMaster, heq, halNotify]

/-- Witness for C5 at a concrete state: the live master client 1 releases
mastership; ownership clears, client 2 is notified, the result is OK. -/
theorem C5_master_arbiter_witness :
    unsetMaster (fun _ => true)
        ⟨some 1, [⟨2, true, 0, true⟩], .RUNNING⟩ 1 =
      (⟨none, [⟨2, true, 0, true⟩], .RUNNING⟩, .OK,
        [(2, .MASTER_RELEASED)]) := by
  have h := (C5_master_arbiter (fun _ => true)
    ⟨some 1, [⟨2, true, 0, true⟩], .RUNNING⟩ 1).2.2.2.2 (by decide)
  rw [h]
  decide

/-! ## StreamHandler two-slot handoff (StreamHandler.cpp)

Per-client state: the slot indices `mReadyBuffer` and `mHeldBuffer`
(each `-1`, `0` or `1`) plus the two-element buffer array `mBuffers`
(only the stored buffer ids matter here, kept as `b0`/`b1`).

Modelled from the spec: the member declarations and initializers live in
`StreamHandler.h`, which is not among the given sources; the spec states
that the slot pair starts empty (`readySlot = heldSlot = -1`), giving
`shInit`.  The calls `mCamera->doneWithFrame_1_1(...)` that hand buffers
back to the camera are external I/O and do not touch the slot state. -/

structure SHState where
  mReadyBuffer : Int
  mHeldBuffer : Int
  b0 : Nat
  b1 : Nat
  deriving Repr, DecidableEq

/-- Write `mBuffers[i] = fid` (indices 0 and 1 are the array cells). -/
def setBuf (s : SHState) (i : Int) (fid : Nat) : SHState :=
  if i = 0 then { s with b0 := fid }
  else if i = 1 then { s with b1 := fid }
  else s

/-- Read `mBuffers[i]`; an index outside the two-element array has no
cell, so the read yields `none`. -/
def getBuf (s : SHState) (i : Int) : Option Nat :=
  if i = 0 then some s.b0 else if i = 1 then some s.b1 else none

/-- `StreamHandler::deliverFrame_1_1`, StreamHandler.cpp lines 145-182: a
null-handle frame only logs; otherwise if a ready frame exists its slot is
reused for the new frame (the old one is sent back to the camera), else if
a frame is held the other slot becomes ready, else slot 0 is picked; the
new frame is stored in the (new) ready slot. -/
def shDeliverFrame (s : SHState) (fid : Nat) (isNull : Bool) : SHState :=
  if isNull = true then s
  else if 0 ≤ s.mReadyBuffer then setBuf s s.mReadyBuffer fid
  else if 0 ≤ s.mHeldBuffer then
    setBuf { s with mReadyBuffer := 1 - s.mHeldBuffer } (1 - s.mHeldBuffer) fid
  else setBuf { s with mReadyBuffer := 0 } 0 fid

/-- `StreamHandler::getNewFrame`, StreamHandler.cpp lines 97-115: if a
frame is already held, log and return it unchanged; otherwise (patching a
`-1` ready slot to `0` first — the "This is a lie!" line 106) move the
ready slot into the held slot, clear the ready slot, and return
`mBuffers[mHeldBuffer]`. -/
def shGetNewFrame (s : SHState) : SHState × Option Nat :=
  if 0 ≤ s.mHeldBuffer then (s, getBuf s s.mHeldBuffer)
  else
    let ready := if s.mReadyBuffer < 0 then (0 : Int) else s.mReadyBuffer
    ({ s with mHeldBuffer := ready, mReadyBuffer := -1 }, getBuf s ready)

/-- `StreamHandler::doneWithFrame`, StreamHandler.cpp lines 118-134: after
(possibly) logging a mismatch, the held buffer is sent back to the camera
and the held slot is cleared unconditionally. -/
def shDoneWithFrame (s : SHState) : SHState :=
  { s with mHeldBuffer := -1 }

inductive SHOp where
  | deliver (fid : Nat) (isNull : Bool)
  | take
  | done
  deriving Repr, DecidableEq

def shStep (s : SHState) : SHOp → SHState
  | .deliver fid isNull => shDeliverFrame s fid isNull
  | .take => (shGetNewFrame s).1
  | .done => shDoneWithFrame s

def shRun (s : SHState) : List SHOp → SHState
  | [] => s
  | op :: rest => shRun (shStep s op) rest

/-- Initial client state: both slots empty. -/
def shInit : SHState := ⟨-1, -1, 0, 0⟩

/-- The slot-pair invariant: both indices lie in `{-1, 0, 1}` and the two
slots never hold the same non-negative value. -/
def shInv (s : SHState) : Prop :=
  (s.mReadyBuffer = -1 ∨ s.mReadyBuffer = 0 ∨ s.mReadyBuffer = 1) ∧
  (s.mHeldBuffer = -1 ∨ s.mHeldBuffer = 0 ∨ s.mHeldBuffer = 1) ∧
  ¬(0 ≤ s.mReadyBuffer ∧ s.mReadyBuffer = s.mHeldBuffer)

theorem shInv_step (s : SHState) (op : SHOp) (h : shInv s) :
    shInv (shStep s op) := by
  obtain ⟨hr, hh, hneq⟩ := h
  cases op with
  | deliver fid isNull =>
    cases isNull with
    | true => exact ⟨hr, hh, hneq⟩
    | false =>
      rcases hr with hr | hr | hr <;> rcases hh with hh | hh | hh <;>
        simp [shStep, shDeliverFrame, setBuf, shInv, hr, hh] <;> omega
  | take =>
    rcases hr with hr | hr | hr <;> rcases hh with hh | hh | hh <;>
      simp [shStep, shGetNewFrame, shInv, hr, hh] <;> omega
  | done =>
    rcases hr with hr | hr | hr <;>
      simp [shStep, shDoneWithFrame, shInv, hr]

theorem shRun_inv (ops : List SHOp) :
    ∀ s : SHState, shInv s → shInv (shRun s ops) := by
  induction ops with
  | nil => intro s h; exact h
  | cons op rest ih => intro s h; exact ih (shStep s op) (shInv_step s op h)

/-- C6: after any sequence of deliver/take/release operations from the
initial state, the ready and held slot indices are each in `{-1, 0, 1}`
and never hold the same non-negative value at the same time. -/
theorem C6_slots_never_collide (ops : List SHOp) :
    ((shRun shInit ops).mReadyBuffer = -1 ∨ (shRun shInit ops).mReadyBuffer = 0 ∨
      (shRun shInit ops).mReadyBuffer = 1) ∧
    ((shRun shInit ops).mHeldBuffer = -1 ∨ (shRun shInit ops).mHeldBuffer = 0 ∨
      (shRun shInit ops).mHeldBuffer = 1) ∧
    ¬(0 ≤ (shRun shInit ops).mReadyBuffer ∧
      (shRun shInit ops).mReadyBuffer = (shRun shInit ops).mHeldBuffer) :=
  shRun_inv ops shInit (by constructor <;> simp [shInit])

/-- C7 counterexample: the claim says `getNewFrame` "moves readySlot into
heldSlot" even when `readySlot` is `-1`, which would leave
`heldSlot = -1`; on the state with both slots empty the code instead
patches the ready slot to `0` first, so the new held slot is `0`, not the
old `readySlot = -1`. -/
theorem C7_counterexample :
    ¬((shGetNewFrame ⟨-1, -1, 7, 8⟩).1.mHeldBuffer =
        (⟨-1, -1, 7, 8⟩ : SHState).mReadyBuffer) := by
  decide

/-- C7 (amended): if a frame is held, `getNewFrame` changes nothing and
returns the held frame; otherwise the ready slot — first patched from `-1`
to `0` if empty — is moved into the held slot, the ready slot is cleared
to `-1`, the buffer array is untouched, and the frame now indexed by the
held slot is returned. -/
theorem C7_takeFrame_behavior (s : SHState) :
    (0 ≤ s.mHeldBuffer →
      (shGetNewFrame s).1 = s ∧ (shGetNewFrame s).2 = getBuf s s.mHeldBuffer) ∧
    (s.mHeldBuffer < 0 →
      (shGetNewFrame s).1.mHeldBuffer =
        (if s.mReadyBuffer < 0 then 0 else s.mReadyBuffer) ∧
      (shGetNewFrame s).1.mReadyBuffer = -1 ∧
      (shGetNewFrame s).1.b0 = s.b0 ∧ (shGetNewFrame s).1.b1 = s.b1 ∧
      (shGetNewFrame s).2 =
        getBuf s (if s.mReadyBuffer < 0 then 0 else s.mReadyBuffer)) := by
  constructor
  · intro h
    simp [shGetNewFrame, h]
  · intro h
    have h2 : ¬(0 ≤ s.mHeldBuffer) := by omega
    simp [shGetNewFrame, h2]

/-- Witness for C7 at a concrete state: ready frame in slot 0, nothing
held; taking moves slot 0 into held and returns buffer 7. -/
theorem C7_takeFrame_behavior_witness :
    (shGetNewFrame ⟨0, -1, 7, 8⟩).1.mHeldBuffer = 0 ∧
    (shGetNewFrame ⟨0, -1, 7, 8⟩).1.mReadyBuffer = -1 ∧
    (shGetNewFrame ⟨0, -1, 7, 8⟩).2 = some 7 := by
  have h := (C7_takeFrame_behavior ⟨0, -1, 7, 8⟩).2 (by decide)
  exact ⟨by rw [h.1]; decide, h.2.1, by rw [h.2.2.2.2]; decide⟩

/-! ## Stream configuration selection (EvsV4lCamera::Create, lines 776-844)

`camInfo->streamConfigurations` maps a stream id to a raw configuration
array `cfg` whose entries `cfg[1]`, `cfg[2]`, `cfg[3]` are width, height
and format; only those three are read by the selection loop, giving
`RawConfig`.  `Stream` (the requested configuration) contributes width,
height and format as well. -/

structure RawConfig where
  width : Nat
  height : Nat
  format : Nat
  deriving Repr, DecidableEq

structure StreamCfg where
  width : Nat
  height : Nat
  format : Nat
  deriving Repr, DecidableEq

/-- The default output format set by the `EvsV4lCamera` constructor
(EvsV4lCamera.cpp line 55); the numeric value is irrelevant, only that the
default configuration carries it. -/
def HAL_PIXEL_FORMAT_RGBA_8888 : Nat := 1

/-- `INT_MIN`, the initial value of `area` at EvsV4lCamera.cpp line 792. -/
def INT_MIN : Int := -2147483648

/-- `kDefaultResolution = {640, 480}`, EvsV4lCamera.cpp line 35. -/
def kDefaultResolution : Nat × Nat := (640, 480)

/-- `cfg[1] * cfg[2]` as computed at EvsV4lCamera.cpp lines 804-806. -/
def cfgArea (c : RawConfig) : Int := (c.width : Int) * (c.height : Int)

/-- Exact match: same format, width and height (lines 796-798). -/
def cfgExact (req : StreamCfg) (c : RawConfig) : Prop :=
  c.format = req.format ∧ c.width = req.width ∧ c.height = req.height

/-- A candidate configuration: matching format that fits strictly within
the requested bounds (`requestedStreamCfg->width > cfg[1] &&
requestedStreamCfg->height > cfg[2]`, lines 802-803). -/
def cfgFits (req : StreamCfg) (c : RawConfig) : Prop :=
  c.format = req.format ∧ c.width < req.width ∧ c.height < req.height

theorem cfgArea_nonneg (c : RawConfig) : 0 ≤ cfgArea c :=
  mul_nonneg (Int.natCast_nonneg _) (Int.natCast_nonneg _)

instance (req : StreamCfg) (c : RawConfig) : Decidable (cfgExact req c) := by
  unfold cfgExact
  infer_instance

instance (req : StreamCfg) (c : RawConfig) : Decidable (cfgFits req c) := by
  unfold cfgFits
  infer_instance

/-- The selection loop of `EvsV4lCamera::Create`, EvsV4lCamera.cpp lines
792-810: walk the stream configurations carrying `streamId` and `area`;
break on the first exact format/width/height match; otherwise remember the
candidate with the largest area so far among the configurations of
matching format that fit strictly inside the requested bounds. -/
def selectConfigLoop (req : StreamCfg) :
    List (Nat × RawConfig) → Option Nat → Int → Option Nat
  | [], streamId, _ => streamId
  | (id, c) :: rest, streamId, area =>
    if c.format = req.format then
      if c.width = req.width ∧ c.height = req.height then some id
      else if c.width < req.width ∧ c.height < req.height ∧ area < cfgArea c then
        selectConfigLoop req rest (some id) (cfgArea c)
      else selectConfigLoop req rest streamId area
    else selectConfigLoop req rest streamId area

/-- `camInfo->streamConfigurations[streamId]` (lines 813-821): map lookup
by stream id. -/
def lookupCfg : List (Nat × RawConfig) → Nat → Option RawConfig
  | [], _ => none
  | (id, c) :: rest, i => if id = i then some c else lookupCfg rest i

/-- The configuration `EvsV4lCamera::Create` opens the device with: when
both `camInfo` and a requested configuration are present and the loop
picks a stream id, its width/height/format; otherwise the default
`640x480` RGBA configuration (lines 812-835).  (A failure of
`mVideo.open` on the selected configuration also falls back to the
default; device I/O is outside this model.) -/
def createOpenConfig (camInfo : Option (List (Nat × RawConfig)))
    (req : Option StreamCfg) : Nat × Nat × Nat :=
  match camInfo, req with
  | some cfgs, some r =>
    match selectConfigLoop r cfgs none INT_MIN with
    | some i =>
      match lookupCfg cfgs i with
      | some c => (c.width, c.height, c.format)
      | none =>
        (kDefaultResolution.1, kDefaultResolution.2, HAL_PIXEL_FORMAT_RGBA_8888)
    | none =>
      (kDefaultResolution.1, kDefaultResolution.2, HAL_PIXEL_FORMAT_RGBA_8888)
  | _, _ =>
    (kDefaultResolution.1, kDefaultResolution.2, HAL_PIXEL_FORMAT_RGBA_8888)

/-- Loop invariant for the selection walk: with no exact match in sight,
a `none` result means no candidate existed (and none was carried in), and
a `some i` result is either the carried-in candidate, dominating every
candidate of the walked list, or a maximal-area candidate from the list
itself. -/
theorem selectConfigLoop_spec (req : StreamCfg) :
    ∀ (cfgs : List (Nat × RawConfig)) (sid : Option Nat) (area : Int),
      (∀ p ∈ cfgs, ¬cfgExact req p.2) →
      (sid = none → area = INT_MIN) →
      ((selectConfigLoop req cfgs sid area = none →
          sid = none ∧ ∀ p ∈ cfgs, ¬cfgFits req p.2) ∧
        (∀ i, selectConfigLoop req cfgs sid area = some i →
          (sid = some i ∧
            ∀ p ∈ cfgs, cfgFits req p.2 → cfgArea p.2 ≤ area) ∨
          (∃ c, (i, c) ∈ cfgs ∧ cfgFits req c ∧ area ≤ cfgArea c ∧
            ∀ p ∈ cfgs, cfgFits req p.2 → cfgArea p.2 ≤ cfgArea c))) := by
  intro cfgs
  induction cfgs with
  | nil =>
    intro sid area _ _
    refine ⟨fun h => ⟨by simpa [selectConfigLoop] using h, by simp⟩, ?_⟩
    intro i h
    exact Or.inl ⟨by simpa [selectConfigLoop] using h, by simp⟩
  | cons p rest ih =>
    obtain ⟨id, c⟩ := p
    intro sid area hne hinit
    have hneRest : ∀ q ∈ rest, ¬cfgExact req q.2 := fun q hq =>
      hne q (List.mem_cons_of_mem _ hq)
    by_cases hfmt : c.format = req.format
    · have hex : ¬(c.width = req.width ∧ c.height = req.height) := by
        intro hwh
        exact hne (id, c) (List.mem_cons_self _ _) ⟨hfmt, hwh.1, hwh.2⟩
      by_cases hq : c.width < req.width ∧ c.height < req.height ∧ area < cfgArea c
      · have hloop : selectConfigLoop req ((id, c) :: rest) sid area =
            selectConfigLoop req rest (some id) (cfgArea c) := by
          simp [selectConfigLoop, hfmt, hex, hq]
        have ihh := ih (some id) (cfgArea c) hneRest (by simp)
        constructor
        · intro h
          rw [hloop] at h
          exact absurd (ihh.1 h).1 (by simp)
        · intro i h
          rw [hloop] at h
          rcases ihh.2 i h with ⟨hsid, hbound⟩ | ⟨c', hc', hfit', harea', hbound'⟩
          · right
            have hii : id = i := by simpa using hsid
            subst hii
            refine ⟨c, List.mem_cons_self _ _, ⟨hfmt, hq.1, hq.2.1⟩,
              le_of_lt hq.2.2, ?_⟩
            intro p hp hfp
            rcases List.mem_cons.mp hp with heq | hp2
            · rw [heq]
            · exact hbound p hp2 hfp
          · right
            refine ⟨c', List.mem_cons_of_mem _ hc', hfit',
              le_trans (le_of_lt hq.2.2) harea', ?_⟩
            intro p hp hfp
            rcases List.mem_cons.mp hp with heq | hp2
            · rw [heq]; exact harea'
            · exact hbound' p hp2 hfp
      · have hheadle : cfgFits req c → cfgArea c ≤ area := by
          intro hf
          by_contra hlt
          exact hq ⟨hf.2.1, hf.2.2, by omega⟩
        have hloop : selectConfigLoop req ((id, c) :: rest) sid area =
            selectConfigLoop req rest sid area := by
          simp [selectConfigLoop, hfmt, hex, hq]
        have ihh := ih sid area hneRest hinit
        constructor
        · intro h
          rw [hloop] at h
          obtain ⟨hsid, hrest⟩ := ihh.1 h
          refine ⟨hsid, ?_⟩
          intro p hp
          rcases List.mem_cons.mp hp with heq | hp2
          · rw [heq]
            intro hf
            have h1 := hheadle hf
            have h2 := cfgArea_nonneg c
            rw [hinit hsid] at h1
            simp [INT_MIN] at h1
            omega
          · exact hrest p hp2
        · intro i h
          rw [hloop] at h
          rcases ihh.2 i h with ⟨hsid, hbound⟩ | ⟨c', hc', hfit', harea', hbound'⟩
          · left
            refine ⟨hsid, ?_⟩
            intro p hp hfp
            rcases List.mem_cons.mp hp with heq | hp2
            · rw [heq] at hfp ⊢
              exact hheadle hfp
            · exact hbound p hp2 hfp
          · right
            refine ⟨c', List.mem_cons_of_mem _ hc', hfit', harea', ?_⟩
            intro p hp hfp
            rcases List.mem_cons.mp hp with heq | hp2
            · rw [heq] at hfp ⊢
              exact le_trans (hheadle hfp) harea'
            · exact hbound' p hp2 hfp
    · have hloop : selectConfigLoop req ((id, c) :: rest) sid area =
          selectConfigLoop req rest sid area := by
        simp [selectConfigLoop, hfmt]
      have hnofit : ¬cfgFits req c := fun hf => hfmt hf.1
      have ihh := ih sid area hneRest hinit
      constructor
      · intro h
        rw [hloop] at h
        obtain ⟨hsid, hrest⟩ := ihh.1 h
        refine ⟨hsid, ?_⟩
        intro p hp
        rcases List.mem_cons.mp hp with heq | hp2
        · rw [heq]; exact hnofit
        · exact hrest p hp2
      · intro i h
        rw [hloop] at h
        rcases ihh.2 i h with ⟨hsid, hbound⟩ | ⟨c', hc', hfit', harea', hbound'⟩
        · left
          refine ⟨hsid, ?_⟩
          intro p hp hfp
          rcases List.mem_cons.mp hp with heq | hp2
          · rw [heq] at hfp; exact absurd hfp hnofit
          · exact hbound p hp2 hfp
        · right
          refine ⟨c', List.mem_cons_of_mem _ hc', hfit', harea', ?_⟩
          intro p hp hfp
          rcases List.mem_cons.mp hp with heq | hp2
          · rw [heq] at hfp; exact absurd hfp hnofit
          · exact hbound' p hp2 hfp

/-- Map lookup finds a member pair when the stream ids are unique keys. -/
theorem lookupCfg_mem (cfgs : List (Nat × RawConfig)) (i : Nat) (c : RawConfig)
    (hmem : (i, c) ∈ cfgs)
    (hkeys : ∀ p ∈ cfgs, ∀ q ∈ cfgs, p.1 = q.1 → p = q) :
    lookupCfg cfgs i = some c := by
  induction cfgs with
  | nil => cases hmem
  | cons p rest ih =>
    obtain ⟨id, c'⟩ := p
    rcases List.mem_cons.mp hmem with heq | hmem2
    · have hi : id = i := (Prod.ext_iff.mp heq.symm).1
      have hc : c' = c := (Prod.ext_iff.mp heq.symm).2
      subst hi; subst hc
      simp [lookupCfg]
    · by_cases hid : id = i
      · subst hid
        have := hkeys (id, c') (List.mem_cons_self _ _)
          (id, c) (List.mem_cons_of_mem _ hmem2) rfl
        have hc : c' = c := (Prod.ext_iff.mp this).2
        subst hc
        simp [lookupCfg]
      · have := ih hmem2 (fun p hp q hq => hkeys p (List.mem_cons_of_mem _ hp)
          q (List.mem_cons_of_mem _ hq))
        simp [lookupCfg, hid, this]

/-- C8: when no configuration of matching format matches the requested
width and height exactly (and stream ids are unique map keys), `Create`
picks a matching-format configuration of maximal area among those fitting
strictly inside the requested bounds and opens the camera with it; it
picks one whenever a qualifying configuration exists; and when the
requested configuration is absent or nothing qualifies, the camera is
opened with the default 640x480 RGBA configuration. -/
theorem C8_create_selects_best (cfgs : List (Nat × RawConfig)) (req : StreamCfg)
    (hne : ∀ p ∈ cfgs, ¬cfgExact req p.2)
    (hkeys : ∀ p ∈ cfgs, ∀ q ∈ cfgs, p.1 = q.1 → p = q) :
    ((∀ p ∈ cfgs, ¬cfgFits req p.2) →
      createOpenConfig (some cfgs) (some req) =
        (640, 480, HAL_PIXEL_FORMAT_RGBA_8888)) ∧
    (∀ i, selectConfigLoop req cfgs none INT_MIN = some i →
      ∃ c, (i, c) ∈ cfgs ∧ cfgFits req c ∧
        (∀ p ∈ cfgs, cfgFits req p.2 → cfgArea p.2 ≤ cfgArea c) ∧
        createOpenConfig (some cfgs) (some req) = (c.width, c.height, c.format)) ∧
    ((∃ p ∈ cfgs, cfgFits req p.2) →
      ∃ i, selectConfigLoop req cfgs none INT_MIN = some i) ∧
    (createOpenConfig (some cfgs) none =
      (640, 480, HAL_PIXEL_FORMAT_RGBA_8888)) ∧
    (createOpenConfig none (some req) =
      (640, 480, HAL_PIXEL_FORMAT_RGBA_8888)) := by
  have hspec := selectConfigLoop_spec req cfgs none INT_MIN hne (fun _ => rfl)
  refine ⟨?_, ?_, ?_, rfl, rfl⟩
  · intro hnofit
    cases hsel : selectConfigLoop req cfgs none INT_MIN with
    | none => simp [createOpenConfig, hsel, kDefaultResolution]
    | some i =>
      rcases hspec.2 i hsel with ⟨hsid, _⟩ | ⟨c, hc, hfit, _, _⟩
      · cases hsid
      · exact absurd hfit (hnofit (i, c) hc)
  · intro i hsel
    rcases hspec.2 i hsel with ⟨hsid, _⟩ | ⟨c, hc, hfit, _, hbound⟩
    · cases hsid
    · have hlook := lookupCfg_mem cfgs i c hc hkeys
      exact ⟨c, hc, hfit, hbound, by simp [createOpenConfig, hsel, hlook]⟩
  · intro hex
    cases hsel : selectConfigLoop req cfgs none INT_MIN with
    | none =>
      obtain ⟨p, hp, hfit⟩ := hex
      exact absurd hfit ((hspec.1 hsel).2 p hp)
    | some i => exact ⟨i, rfl⟩

/-- Witness for C8 at a concrete configuration map: no exact match for the
requested 100x100, and the loop picks stream 1 (80x80, area 6400) over
stream 0 (50x50) while skipping stream 2 (200x80, too wide). -/
theorem C8_create_selects_best_witness :
    ∃ c, ((1 : Nat), c) ∈
        [((0 : Nat), (⟨50, 50, 1⟩ : RawConfig)), (1, ⟨80, 80, 1⟩),
          (2, ⟨200, 80, 1⟩)] ∧
      cfgFits ⟨100, 100, 1⟩ c ∧
      (∀ p ∈ [((0 : Nat), (⟨50, 50, 1⟩ : RawConfig)), (1, ⟨80, 80, 1⟩),
          (2, ⟨200, 80, 1⟩)],
        cfgFits ⟨100, 100, 1⟩ p.2 → cfgArea p.2 ≤ cfgArea c) ∧
      createOpenConfig
          (some [((0 : Nat), (⟨50, 50, 1⟩ : RawConfig)), (1, ⟨80, 80, 1⟩),
            (2, ⟨200, 80, 1⟩)])
          (some ⟨100, 100, 1⟩) = (c.width, c.height, c.format) :=
  (C8_create_selects_best
    [((0 : Nat), (⟨50, 50, 1⟩ : RawConfig)), (1, ⟨80, 80, 1⟩), (2, ⟨200, 80, 1⟩)]
    ⟨100, 100, 1⟩ (by decide) (by decide)).2.1 1 (by decide)

/-! ## Buffer pool management (EvsV4lCamera.cpp lines 111-133, 468-590)

Camera-side state for `setMaxFramesInFlight`: whether the video device is
still open (`mVideo.isOpen()`), `mFramesAllowed`, and the `mBuffers`
records (a graphics-buffer handle or `nullptr`, plus the `inUse` flag).
The graphics-buffer allocator is modelled by its remaining supply `avail`
(it succeeds exactly `avail` more times) and a fresh-handle counter
`nextH`; `mFramesInUse` and the stride bookkeeping are not read by these
paths. -/

structure BufferRecord where
  handle : Option Nat
  inUse : Bool
  deriving Repr, DecidableEq

structure CamState where
  videoOpen : Bool
  mFramesAllowed : Nat
  mBuffers : List BufferRecord
  deriving Repr, DecidableEq

/-- `MAX_BUFFERS_IN_FLIGHT = 100`, EvsV4lCamera.cpp line 39. -/
def MAX_BUFFERS_IN_FLIGHT : Nat := 100

/-- The store-the-new-buffer loop of `increaseAvailableFrames_Locked`,
EvsV4lCamera.cpp lines 543-557: reuse the first record whose handle is
null, else report that nothing was stored (the caller then appends). -/
def storeHandle : List BufferRecord → Nat → Option (List BufferRecord)
  | [], _ => none
  | r :: rest, h =>
    if r.handle = none then some (⟨some h, false⟩ :: rest)
    else (storeHandle rest h).map (r :: ·)

/-- `EvsV4lCamera::increaseAvailableFrames_Locked`, lines 509-564:
allocate up to `numToAdd` buffers, stopping early when the allocator
fails; each allocated handle is stored in the first empty record or
appended, and `mFramesAllowed` is incremented per success.  Returns the
new state and the number of buffers actually added. -/
def increaseAvailableFrames (s : CamState) :
    Nat → Nat → Nat → CamState × Nat
  | _, 0, _ => (s, 0)
  | 0, _+1, _ => (s, 0)
  | a+1, n+1, nextH =>
    let bufs :=
      match storeHandle s.mBuffers nextH with
      | some bs => bs
      | none => s.mBuffers ++ [⟨some nextH, false⟩]
    let s1 := { s with mBuffers := bufs, mFramesAllowed := s.mFramesAllowed + 1 }
    let p := increaseAvailableFrames s1 a n (nextH + 1)
    (p.1, p.2 + 1)

/-- The record walk of `EvsV4lCamera::decreaseAvailableFrames_Locked`,
lines 567-590: free every not-in-use record that still holds a handle,
decrementing the count per free, and break only when `removed`, tested
*after* the increment, equals `numToRemove` — so `numToRemove = 0` frees
every idle buffer.  Returns the new records and the total removed. -/
def decreaseLoop : List BufferRecord → Nat → Nat → List BufferRecord × Nat
  | [], _, removed => ([], removed)
  | r :: rest, numToRemove, removed =>
    if r.inUse = false ∧ r.handle ≠ none then
      if removed + 1 = numToRemove then (⟨none, r.inUse⟩ :: rest, removed + 1)
      else
        let p := decreaseLoop rest numToRemove (removed + 1)
        (⟨none, r.inUse⟩ :: p.1, p.2)
    else
      let p := decreaseLoop rest numToRemove removed
      (r :: p.1, p.2)

/-- `EvsV4lCamera::decreaseAvailableFrames_Locked`, lines 567-590. -/
def decreaseAvailableFrames (s : CamState) (numToRemove : Nat) :
    CamState × Nat :=
  let p := decreaseLoop s.mBuffers numToRemove 0
  ({ s with mBuffers := p.1, mFramesAllowed := s.mFramesAllowed - p.2 }, p.2)

/-- `EvsV4lCamera::setAvailableFrames_Locked`, lines 468-506: reject a
zero or over-limit count; grow by the missing amount, rolling back (via
`decreaseAvailableFrames_Locked(added)`) when not all buffers could be
allocated; or shrink by the surplus. -/
def setAvailableFrames (s : CamState) (avail nextH bufferCount : Nat) :
    CamState × Bool :=
  if bufferCount < 1 then (s, false)
  else if MAX_BUFFERS_IN_FLIGHT < bufferCount then (s, false)
  else if s.mFramesAllowed < bufferCount then
    let p := increaseAvailableFrames s avail (bufferCount - s.mFramesAllowed) nextH
    if p.2 ≠ bufferCount - s.mFramesAllowed then
      ((decreaseAvailableFrames p.1 p.2).1, false)
    else (p.1, true)
  else if bufferCount < s.mFramesAllowed then
    ((decreaseAvailableFrames s (s.mFramesAllowed - bufferCount)).1, true)
  else (s, true)

/-- `EvsV4lCamera::setMaxFramesInFlight`, lines 111-133: OWNERSHIP_LOST
when the video device has been lost, INVALID_ARG for a zero count, OK or
BUFFER_NOT_AVAILABLE from `setAvailableFrames_Locked`. -/
def setMaxFramesInFlight (s : CamState) (avail nextH bufferCount : Nat) :
    CamState × EvsResult :=
  if s.videoOpen = false then (s, .OWNERSHIP_LOST)
  else if bufferCount < 1 then (s, .INVALID_ARG)
  else
    let p := setAvailableFrames s avail nextH bufferCount
    (p.1, if p.2 = true then .OK else .BUFFER_NOT_AVAILABLE)

/-- C9: the claim says a failed pool growth rolls the partial allocation
back and restores the allowed-frames count.  Failing input: device open,
`mFramesAllowed = 1` with one idle allocated buffer, and a request for 2
buffers while the allocator cannot supply any.  The rollback call
`decreaseAvailableFrames_Locked(0)` frees *every* idle buffer (its break
test `removed == numToRemove` runs only after a removal, so it never fires
for `numToRemove = 0`): the pre-existing buffer is freed and
`mFramesAllowed` ends at 0 instead of being restored to 1, even though
BUFFER_NOT_AVAILABLE is returned as described. -/
theorem C9_rollback_frees_idle_buffers :
    setMaxFramesInFlight ⟨true, 1, [⟨some 5, false⟩]⟩ 0 10 2 =
      (⟨true, 0, [⟨none, false⟩]⟩, .BUFFER_NOT_AVAILABLE) := by
  decide

/-! ## makeVirtualCamera out-of-bounds write (HalCamera.cpp lines 36-54) -/

/-- A `std::vector`: element storage plus reserved capacity.  `reserve`
changes only the capacity; the size is `data.length`. -/
structure CppVector (α : Type) where
  data : List α
  capacity : Nat
  deriving Repr, DecidableEq

def CppVector.reserve {α : Type} (v : CppVector α) (n : Nat) : CppVector α :=
  { v with capacity := max v.capacity n }

/-- Total embedding of the write `v[i] = x`: an index at or beyond the
size has no cell, so the write takes the error branch and yields `none`
(in C++ this access is undefined behavior). -/
def CppVector.setElem {α : Type} (v : CppVector α) (i : Nat) (x : α) :
    Option (CppVector α) :=
  if i < v.data.length then some { v with data := v.data.set i x } else none

/-- `HalCamera::makeVirtualCamera` prologue, HalCamera.cpp lines 39-41:
`std::vector<sp<HalCamera>> sourceCameras; sourceCameras.reserve(1);
sourceCameras[0] = this;` — the camera pointer is modelled by a number. -/
def makeVirtualCameraSources (thisCam : Nat) : Option (CppVector Nat) :=
  let sourceCameras : CppVector Nat := { data := [], capacity := 0 }
  let sourceCameras := sourceCameras.reserve 1
  sourceCameras.setElem 0 thisCam

/-- C10: on every call, the write `sourceCameras[0] = this` happens after
only `reserve(1)` while the vector size is still 0, so under the total
embedding the indexing has no cell and the error branch is taken on every
call. -/
theorem C10_makeVirtualCamera_oob_write (thisCam : Nat) :
    makeVirtualCameraSources thisCam = none := rfl
